import Mathlib

/-!
Verification of the voice-browser orchestration core.

Shallow embedding of:
- the action registry and dispatch protocol
  (`chrome-extension/src/background/agent/actions/builder.ts`):
  `Action`, `Action.call`, `buildDynamicActionSchema`, `InvalidInputError`;
- the model-invocation layer and error taxonomy
  (`chrome-extension/src/background/agent/agents/base.ts` and `errors.ts`):
  `BaseAgent.invoke`, `BaseAgent.supportsVision`,
  `BaseAgent.stripImagesFromMessages`, the classification predicates;
- the planner boolean-coercion schema
  (`agents/__tests__/planner.test.ts`: `booleanStringSchema`);
- the learned-pattern memory store (`packages/storage/.../memory.ts`):
  `memoryStore.addPattern`, `memoryStore.setPreference`.

JavaScript values that cross the relevant interfaces are modelled by a
small JSON-like inductive type; zod object schemas are modelled by a
shape (field name, field type, optional flag) together with a
`safeParse` function mirroring zod's object parsing (type check per
field, required-field check, unknown keys stripped).  zod aggregates
all issues into one message; the model reports the first issue — the
claims only constrain the presence of the rejection detail, which the
model carries verbatim.
-/

namespace VoiceBrowser

/-- JSON-like runtime values (JS values crossing the dispatch interface). -/
inductive Json where
  | null : Json
  | bool (b : Bool) : Json
  | num (n : Int) : Json
  | str (s : String) : Json
  | obj (fields : List (String × Json)) : Json

/-- JS `a.includes(b)` on lists of characters: `pat` occurs as a leading
segment of `l`. -/
def listStartsWith [BEq α] : List α → List α → Bool
  | _, [] => true
  | [], _ :: _ => false
  | a :: as, b :: bs => a == b && listStartsWith as bs

/-- `pat` occurs as a contiguous subsequence of `l`. -/
def listContainsSeq [BEq α] : List α → List α → Bool
  | [], pat => pat.isEmpty
  | a :: as, pat => listStartsWith (a :: as) pat || listContainsSeq as pat

/-- JS `String.prototype.includes`: substring containment. -/
def containsSub (s pat : String) : Bool :=
  listContainsSeq s.toList pat.toList

/-- JS `String.prototype.toLowerCase` on the ASCII range, computed on the
character list so that concrete instances evaluate inside proofs. -/
def jsToLowerCase (s : String) : String :=
  String.mk (s.data.map Char.toLower)

/-- JS `String.prototype.trim` (leading and trailing whitespace removed),
computed on the character list. -/
def jsTrim (s : String) : String :=
  String.mk (((s.data.dropWhile Char.isWhitespace).reverse.dropWhile
    Char.isWhitespace).reverse)

/- ### Action registry data model (`actions/builder.ts`, `actions/schemas.ts`) -/

/-- Primitive zod field types appearing in the action input schemas. -/
inductive VSchema where
  | vsStr : VSchema
  | vsNum : VSchema
  | vsBool : VSchema

/-- One field of a zod object schema: a type and an optional flag. -/
structure FieldSpec where
  type : VSchema
  optional : Bool

/-- Does a JSON value conform to a primitive field type? -/
def checkType : VSchema → Json → Bool
  | .vsStr, .str _ => true
  | .vsNum, .num _ => true
  | .vsBool, .bool _ => true
  | _, _ => false

/-- First binding for a key in a JS object (JS object keys are unique). -/
def lookupField (kvs : List (String × Json)) (k : String) : Option Json :=
  match kvs.find? (fun p => p.1 == k) with
  | some p => some p.2
  | none => none

/-- Parse the declared fields of a zod object schema against the bindings of
an input object: missing required field or type mismatch is an issue;
declared fields are re-emitted (zod strips unknown keys). -/
def safeParseFields : List (String × FieldSpec) → List (String × Json) →
    Except String (List (String × Json))
  | [], _ => .ok []
  | (k, fs) :: rest, kvs =>
    match lookupField kvs k with
    | none =>
      if fs.optional then safeParseFields rest kvs
      else .error ("Required field " ++ k)
    | some v =>
      if checkType fs.type v then
        (safeParseFields rest kvs).map (fun out => (k, v) :: out)
      else .error ("Invalid type for field " ++ k)

/-- zod `ZodObject.safeParse`: the input must be an object, then fields are
checked; mirrors the validation `Action.call` runs on its input. -/
def safeParseObject (shape : List (String × FieldSpec)) (v : Json) :
    Except String Json :=
  match v with
  | .obj kvs => (safeParseFields shape kvs).map Json.obj
  | _ => .error "Expected object"

/-- Result of a capability handler (`ActionResult` in `agent/types.ts`). -/
structure ActionResult where
  extractedContent : Option String := none
  error : Option String := none
  isDone : Bool := false
  includeInMemory : Bool := false

/-- `ActionSchema`: name, description and the zod object schema's shape. -/
structure ActionSchema where
  name : String
  description : String
  shape : List (String × FieldSpec)

/-- The `Action` class of `actions/builder.ts`. -/
structure Action where
  handler : Json → ActionResult
  schema : ActionSchema
  hasIndex : Bool := false
  needsDelay : Bool := true

/-- `Action.name()` returns the schema's name. -/
def Action.name (a : Action) : String := a.schema.name

/-- Observable outcome of `Action.call`: either an `InvalidInputError`
carrying the validator's message is thrown (handler never runs), or the
handler is invoked on a specific input and its result returned. -/
inductive CallOutcome where
  | invalidInput (message : String) : CallOutcome
  | handled (input : Json) (result : ActionResult) : CallOutcome

/-- Is the outcome a thrown `InvalidInputError`? -/
def CallOutcome.isInvalidInput : CallOutcome → Bool
  | .invalidInput _ => true
  | .handled _ _ => false

/-- `Action.call` (`builder.ts` lines 525–544): if the schema is an empty
object schema the input is ignored and the handler receives `{}`;
otherwise the input is `safeParse`d, a failure throws
`InvalidInputError(parsedArgs.error.message)`, and on success the handler
receives the parsed data. -/
def Action.call (a : Action) (input : Json) : CallOutcome :=
  if a.schema.shape.isEmpty then
    CallOutcome.handled (Json.obj []) (a.handler (Json.obj []))
  else
    match safeParseObject a.schema.shape input with
    | .error msg => CallOutcome.invalidInput msg
    | .ok data => CallOutcome.handled data (a.handler data)

/-- A capability with an empty input schema (shape `z.object({})`), used as
a concrete instance of the empty-schema shortcut in `Action.call`. -/
def emptyAction : Action :=
  { handler := fun _ => { extractedContent := some "ack", isDone := true }
    schema := { name := "noop", description := "no-op action", shape := [] } }

/- ### Decision schema (`buildDynamicActionSchema`, `builder.ts` 608–619) -/

/-- zod types as built by `buildDynamicActionSchema`: an object schema
possibly wrapped by `.nullable()`, `.optional()` and `.describe(...)`. -/
inductive ZType where
  | objectZ (shape : List (String × FieldSpec)) : ZType
  | nullableZ (inner : ZType) : ZType
  | optionalZ (inner : ZType) : ZType
  | describedZ (inner : ZType) (descriptionText : String) : ZType

/-- zod `isOptional()`: does the type accept `undefined`?  `optional`
wrappers do; `nullable` and `describe` defer to the wrapped type. -/
def ZType.isOptional : ZType → Bool
  | .objectZ _ => false
  | .nullableZ t => t.isOptional
  | .optionalZ _ => true
  | .describedZ t _ => t.isOptional

/-- zod `isNullable()`: does the type accept `null`?  `nullable` wrappers
do; `optional` and `describe` defer to the wrapped type. -/
def ZType.isNullable : ZType → Bool
  | .objectZ _ => false
  | .nullableZ _ => true
  | .optionalZ t => t.isNullable
  | .describedZ t _ => t.isNullable

/-- `z.object(...).extend({[key]: value})`: JS object spread updates an
existing key in place and appends a fresh key at the end. -/
def extendField (fields : List (String × ZType)) (key : String) (value : ZType) :
    List (String × ZType) :=
  if fields.any (fun p => p.1 == key) then
    fields.map (fun p => if p.1 == key then (key, value) else p)
  else
    fields ++ [(key, value)]

/-- The zod type `buildDynamicActionSchema` installs for one action:
`action.schema.schema.nullable().optional().describe(action.schema.description)`. -/
def decisionField (a : Action) : ZType :=
  ZType.describedZ (ZType.optionalZ (ZType.nullableZ (ZType.objectZ a.schema.shape)))
    a.schema.description

/-- `buildDynamicActionSchema` (`builder.ts` 608–619): starting from
`z.object({})`, extend with one nullable-optional field per action, keyed
by the action's name. -/
def buildDynamicActionSchema (actions : List Action) : List (String × ZType) :=
  actions.foldl (fun schema action => extendField schema action.name (decisionField action)) []

theorem extendField_fst_of_replace {l : List (String × ZType)} {key : String}
    {value : ZType} (h : l.any (fun p => p.1 == key) = true) :
    (extendField l key value).map Prod.fst = l.map Prod.fst := by
  simp only [extendField, h, if_true, List.map_map]
  apply List.map_congr_left
  intro p _
  by_cases hpk : p.1 = key
  · simp [Function.comp, hpk]
  · simp [Function.comp, beq_eq_false_iff_ne.mpr hpk]

theorem extendField_fst_of_fresh {l : List (String × ZType)} {key : String}
    {value : ZType} (h : l.any (fun p => p.1 == key) = false) :
    (extendField l key value).map Prod.fst = l.map Prod.fst ++ [key] := by
  simp [extendField, h]

theorem extendField_fst_nodup {l : List (String × ZType)} {key : String}
    {value : ZType} (h : (l.map Prod.fst).Nodup) :
    ((extendField l key value).map Prod.fst).Nodup := by
  by_cases hk : l.any (fun p => p.1 == key) = true
  · rw [extendField_fst_of_replace hk]; exact h
  · rw [extendField_fst_of_fresh (Bool.eq_false_iff.mpr hk)]
    have hmem : key ∉ l.map Prod.fst := by
      intro hin
      rcases List.mem_map.mp hin with ⟨p, hp, hfst⟩
      have : l.any (fun p => p.1 == key) = true :=
        List.any_eq_true.mpr ⟨p, hp, beq_iff_eq.mpr hfst⟩
      exact hk this
    refine List.Nodup.append h (List.nodup_singleton key) ?_
    intro a ha hb
    rw [List.mem_singleton] at hb
    exact hmem (hb ▸ ha)

theorem extendField_fst_mem {l : List (String × ZType)} {key : String}
    {value : ZType} (n : String) :
    n ∈ (extendField l key value).map Prod.fst ↔ n ∈ l.map Prod.fst ∨ n = key := by
  by_cases hk : l.any (fun p => p.1 == key) = true
  · rw [extendField_fst_of_replace hk]
    constructor
    · exact fun h => Or.inl h
    · rintro (h | rfl)
      · exact h
      · rcases List.any_eq_true.mp hk with ⟨p, hp, hbeq⟩
        exact List.mem_map.mpr ⟨p, hp, (beq_iff_eq.mp hbeq)⟩
  · rw [extendField_fst_of_fresh (Bool.eq_false_iff.mpr hk)]
    simp

theorem extendField_mem {l : List (String × ZType)} {key : String}
    {value : ZType} {p : String × ZType} (h : p ∈ extendField l key value) :
    p ∈ l ∨ p = (key, value) := by
  unfold extendField at h
  by_cases hk : l.any (fun q => q.1 == key) = true
  · rw [if_pos hk] at h
    rcases List.mem_map.mp h with ⟨q, hq, hfq⟩
    by_cases hqk : q.1 = key
    · right
      rw [← hfq]
      simp [hqk]
    · left
      rw [← hfq]
      simpa [beq_eq_false_iff_ne.mpr hqk] using hq
  · have hk' : (l.any fun q => q.1 == key) = false := Bool.eq_false_iff.mpr hk
    simp only [hk', Bool.false_eq_true, if_false, List.mem_append,
      List.mem_singleton] at h
    exact h

/-- Invariant of the `buildDynamicActionSchema` fold, generalized over the
accumulator: keys stay duplicate-free, keys are exactly the old keys plus
the action names, and every binding is an old binding or a decision field
of one of the actions. -/
theorem buildDynamicActionSchema_fold_invariant (actions : List Action) :
    ∀ acc : List (String × ZType), (acc.map Prod.fst).Nodup →
      (((actions.foldl
          (fun schema action => extendField schema action.name (decisionField action))
          acc).map Prod.fst).Nodup
      ∧ (∀ n, n ∈ (actions.foldl
          (fun schema action => extendField schema action.name (decisionField action))
          acc).map Prod.fst ↔ n ∈ acc.map Prod.fst ∨ n ∈ actions.map Action.name)
      ∧ (∀ p ∈ actions.foldl
          (fun schema action => extendField schema action.name (decisionField action))
          acc, p ∈ acc ∨ ∃ a ∈ actions, p.2 = decisionField a)) := by
  induction actions with
  | nil => intro acc hacc; exact ⟨hacc, fun n => by simp, fun p hp => Or.inl hp⟩
  | cons a rest ih =>
    intro acc hacc
    have hstep : ((extendField acc a.name (decisionField a)).map Prod.fst).Nodup :=
      extendField_fst_nodup hacc
    rcases ih (extendField acc a.name (decisionField a)) hstep with ⟨h1, h2, h3⟩
    refine ⟨h1, ?_, ?_⟩
    · intro n
      rw [List.foldl_cons] at *
      rw [h2 n, extendField_fst_mem n]
      simp only [List.map_cons, List.mem_cons]
      tauto
    · intro p hp
      rw [List.foldl_cons] at hp
      rcases h3 p hp with hin | ⟨b, hb, hdec⟩
      · rcases extendField_mem hin with hold | rfl
        · exact Or.inl hold
        · exact Or.inr ⟨a, List.mem_cons_self a rest, rfl⟩
      · exact Or.inr ⟨b, List.mem_cons_of_mem a hb, hdec⟩

/-- Claim C1: for every list of registered capabilities,
`buildDynamicActionSchema` returns an object schema in which every field
is both optional and nullable, the field names are duplicate-free, and
the set of field names equals the set of capability names. -/
theorem buildDecisionSchema_fields_optional_nullable_unique (actions : List Action) :
    (∀ p ∈ buildDynamicActionSchema actions,
      (p.2).isOptional = true ∧ (p.2).isNullable = true)
    ∧ ((buildDynamicActionSchema actions).map Prod.fst).Nodup
    ∧ (∀ n, n ∈ (buildDynamicActionSchema actions).map Prod.fst ↔
        n ∈ actions.map Action.name) := by
  have h := buildDynamicActionSchema_fold_invariant actions [] (by simp)
  rcases h with ⟨h1, h2, h3⟩
  refine ⟨?_, h1, ?_⟩
  · intro p hp
    rcases h3 p hp with hfalse | ⟨a, _, hdec⟩
    · simp at hfalse
    · rw [hdec]; exact ⟨rfl, rfl⟩
  · intro n
    rw [buildDynamicActionSchema, h2 n]
    simp

/-- Witness for C1 at a concrete one-action registry. -/
theorem buildDecisionSchema_fields_optional_nullable_unique_witness :
    ((buildDynamicActionSchema [emptyAction]).map Prod.fst).Nodup
    ∧ ("noop" ∈ (buildDynamicActionSchema [emptyAction]).map Prod.fst ↔
        "noop" ∈ [emptyAction].map Action.name) :=
  ⟨(buildDecisionSchema_fields_optional_nullable_unique [emptyAction]).2.1,
   (buildDecisionSchema_fields_optional_nullable_unique [emptyAction]).2.2 "noop"⟩

/- ### Claims C2 and C9: `Action.call` validation behaviour -/

/-- Claim C2 as stated is refuted by the empty-schema shortcut: the input
`"x"` fails `z.object({})` validation (it is not an object), yet
`Action.call` does not raise `InvalidInputError` — it invokes the handler
on `{}`. -/
theorem actionCall_empty_schema_skips_validation_counterexample :
    safeParseObject emptyAction.schema.shape (Json.str "x") =
      Except.error "Expected object"
    ∧ (emptyAction.call (Json.str "x")).isInvalidInput = false
    ∧ emptyAction.call (Json.str "x") =
        CallOutcome.handled (Json.obj []) (emptyAction.handler (Json.obj [])) :=
  ⟨rfl, rfl, rfl⟩

/-- Claim C2 (amended): for every capability whose input schema has at
least one declared field, an input that fails the schema's validation
makes `Action.call` raise `InvalidInputError` whose message is exactly
the validator's rejection detail, and the handler is not invoked. -/
theorem actionCall_invalid_input_raises (a : Action) (input : Json) (msg : String)
    (hshape : a.schema.shape ≠ [])
    (hfail : safeParseObject a.schema.shape input = Except.error msg) :
    a.call input = CallOutcome.invalidInput msg := by
  have hempty : a.schema.shape.isEmpty = false := by
    cases h : a.schema.shape with
    | nil => exact absurd h hshape
    | cons x xs => rfl
  simp [Action.call, hempty, hfail]

/-- A capability with one required string field, for concrete witnesses. -/
def goToUrlAction : Action :=
  { handler := fun _ => { extractedContent := some "navigated", includeInMemory := true }
    schema := { name := "go_to_url", description := "navigate to url"
                shape := [("url", { type := VSchema.vsStr, optional := false })] } }

/-- Witness for amended C2: a number where `go_to_url` expects an object
fails validation and surfaces the rejection detail. -/
theorem actionCall_invalid_input_raises_witness :
    goToUrlAction.call (Json.num 7) = CallOutcome.invalidInput "Expected object" :=
  actionCall_invalid_input_raises goToUrlAction (Json.num 7) "Expected object"
    (by simp [goToUrlAction]) rfl

/-- Claim C9: for every capability whose input schema is an object schema
with zero fields, `Action.call` ignores the input entirely — the handler
is invoked with `{}` and no `InvalidInputError` is ever raised, for every
input value. -/
theorem actionCall_empty_schema_ignores_input (a : Action) (input : Json)
    (hshape : a.schema.shape = []) :
    a.call input = CallOutcome.handled (Json.obj []) (a.handler (Json.obj [])) := by
  simp [Action.call, hshape]

/-- Witness for C9 at a concrete empty-schema capability and an input that
would fail any non-trivial validation. -/
theorem actionCall_empty_schema_ignores_input_witness :
    emptyAction.call (Json.num 3) =
      CallOutcome.handled (Json.obj []) (emptyAction.handler (Json.obj [])) :=
  actionCall_empty_schema_ignores_input emptyAction (Json.num 3) rfl

/- ### Error taxonomy (`agents/errors.ts`) -/

/-- A JS `Error` object as the predicates observe it: `name`, `message`,
and an optional numeric `status` property set by LLM SDKs. -/
structure JsError where
  name : String
  message : String
  status : Option Int := none

/-- A JS value reaching a classification predicate (`unknown` parameter). -/
inductive JsValue where
  | error (e : JsError) : JsValue
  | str (s : String) : JsValue
  | num (n : Int) : JsValue
  | null : JsValue
  | undef : JsValue

/-- Is the value an `Error` instance? -/
def JsValue.isErrorValue : JsValue → Bool
  | .error _ => true
  | _ => false

/-- JS `String(value)` coercion for the values modelled here; an `Error`
stringifies as `name: message`. -/
def jsStringOf : JsValue → String
  | .error e => e.name ++ ": " ++ e.message
  | .str s => s
  | .num n => toString n
  | .null => "null"
  | .undef => "undefined"

/-- `isAuthenticationError` (`errors.ts` 429–450): name marker, status 401,
or message containing "authentication", " 401" or "api key". -/
def isAuthenticationError (v : JsValue) : Bool :=
  match v with
  | .error e =>
    if e.name == "AuthenticationError" then true
    else if e.status == some 401 then true
    else
      containsSub (jsToLowerCase e.message) "authentication"
      || containsSub e.message " 401"
      || containsSub (jsToLowerCase e.message) "api key"
  | _ => false

/-- `isForbiddenError` (`errors.ts` 458–467): status 403, or message
containing " 403" or "forbidden". -/
def isForbiddenError (v : JsValue) : Bool :=
  match v with
  | .error e =>
    if e.status == some 403 then true
    else containsSub e.message " 403" || containsSub (jsToLowerCase e.message) "forbidden"
  | _ => false

/-- `isBadRequestError` (`errors.ts` 475–499): name marker, status 400, or
known bad-request message markers. -/
def isBadRequestError (v : JsValue) : Bool :=
  match v with
  | .error e =>
    if e.name == "BadRequestError" then true
    else if e.status == some 400 then true
    else
      containsSub e.message " 400"
      || containsSub (jsToLowerCase e.message) "badrequest"
      || containsSub e.message "Invalid parameter"
      || (containsSub e.message "response_format"
          && containsSub e.message "json_schema"
          && containsSub e.message "not supported")
  | _ => false

/-- `isAbortedError` (`errors.ts` 501–504): name `AbortError` or message
containing "Aborted". -/
def isAbortedError (v : JsValue) : Bool :=
  match v with
  | .error e => e.name == "AbortError" || containsSub e.message "Aborted"
  | _ => false

/-- `isExtensionConflictError` (`errors.ts` 512–516): unlike the other
predicates it stringifies non-`Error` input (`String(error)`) before the
substring checks, so it can fire on plain strings. -/
def isExtensionConflictError (v : JsValue) : Bool :=
  let msg := (match v with
    | .error e => e.message
    | other => jsStringOf other) |> jsToLowerCase
  containsSub msg "cannot access a chrome-extension"
    && containsSub msg "of different extension"

/-- Classified-error kinds of the taxonomy (spec §3). -/
inductive ErrorKind where
  | aborted : ErrorKind
  | authentication : ErrorKind
  | forbidden : ErrorKind
  | badRequest : ErrorKind
  | environmentConflict : ErrorKind
  | unclassified : ErrorKind
deriving DecidableEq

/-- Modelled from the spec: the driver applying the classification
predicates in the fixed priority order aborted > auth > forbidden >
bad-request > conflict > unclassified (the caller that applies this
order is outside the files under verification; the predicates themselves
are from `errors.ts`). -/
def classifyError (v : JsValue) : ErrorKind :=
  if isAbortedError v then .aborted
  else if isAuthenticationError v then .authentication
  else if isForbiddenError v then .forbidden
  else if isBadRequestError v then .badRequest
  else if isExtensionConflictError v then .environmentConflict
  else .unclassified

/- ### Model invocation layer (`agents/base.ts`) -/

/-- Provider identities compared against `ProviderTypeEnum` in
`supportsVision`; other enum members never compared are collapsed into
`other`. -/
inductive ProviderType where
  | gemini : ProviderType
  | openai : ProviderType
  | anthropic : ProviderType
  | llama : ProviderType
  | deepSeek : ProviderType
  | other (id : String) : ProviderType
deriving BEq, DecidableEq

/-- The `BaseAgent` state that `invoke`, `supportsVision` and
`stripImagesFromMessages` read. -/
structure BaseAgent where
  provider : ProviderType
  chatModelLibrary : String
  modelName : String
  withStructuredOutput : Bool

/-- Result of one underlying LLM call.  For the structured path `ok`
carries the parsed value (if any) and the raw text content (if a string);
for the manual path `ok`'s raw content models `response.content` when it
is a string.  `err` models the call throwing — in that case the local
`response` variable stays `undefined`, so no raw content is available to
the catch handler. -/
inductive LLMResult where
  | ok (parsed : Option Json) (rawContent : Option String) : LLMResult
  | err (e : JsError) : LLMResult

/-- What `BaseAgent.invoke` can throw. -/
inductive ThrownError where
  | propagated (e : JsError) : ThrownError
  | wrappedStructured (message : String) : ThrownError
  | responseParse (message : String) : ThrownError

/-- Outcome of one `invoke`. -/
inductive InvokeOutcome where
  | success (output : Json) : InvokeOutcome
  | thrown (e : ThrownError) : InvokeOutcome

/-- Is the outcome a thrown `ResponseParseError`? -/
def InvokeOutcome.isResponseParseThrown : InvokeOutcome → Bool
  | .thrown (.responseParse _) => true
  | _ => false

/-- An `invoke` outcome together with the number of
`manuallyParseResponse` attempts made during it. -/
structure InvokeTrace where
  outcome : InvokeOutcome
  manualParseCalls : Nat

/-- The catch handler of the structured path (`base.ts` 227–246): aborted
errors propagate unchanged before any content inspection; otherwise, if
the message contains "is not valid JSON" and a raw string content was
captured, manual recovery is attempted (success returns, failure falls
through); everything else is re-thrown wrapped in a generic `Error`. -/
def structuredCatch (modelName : String) (e : JsError) (rawContent : Option String)
    (mp : String → Option Json) : InvokeTrace :=
  if isAbortedError (.error e) then
    ⟨.thrown (.propagated e), 0⟩
  else
    let wrapped : ThrownError :=
      .wrappedStructured
        ("Failed to invoke " ++ modelName ++ " with structured output: \n" ++ e.message)
    match rawContent with
    | some raw =>
      if containsSub e.message "is not valid JSON" then
        match mp raw with
        | some parsed => ⟨.success parsed, 1⟩
        | none => ⟨.thrown wrapped, 1⟩
      else ⟨.thrown wrapped, 0⟩
    | none => ⟨.thrown wrapped, 0⟩

/-- The structured-output path of `BaseAgent.invoke` (`base.ts` 195–247):
a parsed value returns; a missing parsed value throws
`Error('Could not parse response with structured output')` into the catch
handler; a throwing call reaches the catch handler with `response`
undefined. -/
def invokeStructured (modelName : String) (r : LLMResult)
    (mp : String → Option Json) : InvokeTrace :=
  match r with
  | .ok (some parsed) _ => ⟨.success parsed, 0⟩
  | .ok none rawContent =>
    structuredCatch modelName
      { name := "Error", message := "Could not parse response with structured output" }
      rawContent mp
  | .err e => structuredCatch modelName e none mp

/-- The manual-extraction path of `BaseAgent.invoke` (`base.ts` 249–272):
a throwing call is logged and re-thrown unchanged; a string content is
manually parsed, success returns; any fall-through throws
`ResponseParseError('Could not parse response')`. -/
def invokeManual (r : LLMResult) (mp : String → Option Json) : InvokeTrace :=
  match r with
  | .err e => ⟨.thrown (.propagated e), 0⟩
  | .ok _ rawContent =>
    match rawContent with
    | some content =>
      match mp content with
      | some parsed => ⟨.success parsed, 1⟩
      | none => ⟨.thrown (.responseParse "Could not parse response"), 1⟩
    | none => ⟨.thrown (.responseParse "Could not parse response"), 0⟩

/-- `BaseAgent.invoke` (`base.ts` 190–272): structured path when
structured output is enabled, manual-extraction path otherwise.  The LLM
call's behaviour is `r`; `mp` is `manuallyParseResponse` (returning
`none` when recovery — think-tag stripping, JSON extraction or schema
validation — fails). -/
def BaseAgent.invoke (a : BaseAgent) (r : LLMResult)
    (mp : String → Option Json) : InvokeTrace :=
  if a.withStructuredOutput then invokeStructured a.modelName r mp
  else invokeManual r mp

/- ### Claims C3, C4, C5, C7 -/

/-- A concrete agent configured for the structured-output path. -/
def agentStructured : BaseAgent :=
  { provider := ProviderType.other "custom_openai"
    chatModelLibrary := "ChatOpenAI"
    modelName := "m1"
    withStructuredOutput := true }

/-- A concrete agent configured for the manual-extraction path. -/
def agentManual : BaseAgent :=
  { provider := ProviderType.llama
    chatModelLibrary := "ChatGroq"
    modelName := "llama-3.3-70b"
    withStructuredOutput := false }

/-- Claim C3: an error named `AbortError` whose message contains "403"
classifies as Aborted, not Forbidden: `isAbortedError` accepts it, the
fixed-priority classification yields `aborted`, and `BaseAgent.invoke`
checks `isAbortedError` before any content-based handling — the error
propagates unchanged with no recovery attempt. -/
theorem abortError_with_403_classifies_aborted (e : JsError) (a : BaseAgent)
    (mp : String → Option Json)
    (hname : e.name = "AbortError") (h403 : containsSub e.message "403" = true) :
    isAbortedError (.error e) = true
    ∧ classifyError (.error e) = ErrorKind.aborted
    ∧ a.invoke (.err e) mp = ⟨.thrown (.propagated e), 0⟩ := by
  have habort : isAbortedError (.error e) = true := by
    simp [isAbortedError, hname]
  refine ⟨habort, ?_, ?_⟩
  · simp [classifyError, habort]
  · unfold BaseAgent.invoke
    by_cases hws : a.withStructuredOutput = true
    · simp only [hws, if_true]
      show structuredCatch a.modelName e none mp = _
      unfold structuredCatch
      rw [if_pos habort]
    · simp only [Bool.eq_false_iff.mpr hws, Bool.false_eq_true, if_false]
      rfl

/-- Witness for C3 at a concrete `AbortError` carrying "403". -/
theorem abortError_with_403_classifies_aborted_witness :
    isAbortedError (.error { name := "AbortError", message := "Request failed with status 403" }) = true
    ∧ classifyError (.error { name := "AbortError", message := "Request failed with status 403" }) = ErrorKind.aborted
    ∧ agentStructured.invoke
        (.err { name := "AbortError", message := "Request failed with status 403" })
        (fun _ => none) =
      ⟨.thrown (.propagated { name := "AbortError", message := "Request failed with status 403" }), 0⟩ :=
  abortError_with_403_classifies_aborted
    { name := "AbortError", message := "Request failed with status 403" }
    agentStructured (fun _ => none) rfl (by decide)

/-- Claim C4: whenever the model call fails with an error accepted by
`isAbortedError`, `BaseAgent.invoke` (either path) propagates that error
unchanged and `manuallyParseResponse` is never called. -/
theorem aborted_error_propagates_without_recovery (a : BaseAgent) (e : JsError)
    (mp : String → Option Json) (habort : isAbortedError (.error e) = true) :
    a.invoke (.err e) mp = ⟨.thrown (.propagated e), 0⟩ := by
  unfold BaseAgent.invoke
  by_cases hws : a.withStructuredOutput = true
  · simp only [hws, if_true]
    show structuredCatch a.modelName e none mp = _
    unfold structuredCatch
    rw [if_pos habort]
  · simp only [Bool.eq_false_iff.mpr hws, Bool.false_eq_true, if_false]
    rfl

/-- Witness for C4 at a concrete cancellation error. -/
theorem aborted_error_propagates_without_recovery_witness :
    agentManual.invoke (.err { name := "Error", message := "Aborted by signal" })
      (fun _ => none) =
    ⟨.thrown (.propagated { name := "Error", message := "Aborted by signal" }), 0⟩ :=
  aborted_error_propagates_without_recovery agentManual
    { name := "Error", message := "Aborted by signal" } (fun _ => none) (by decide)

/-- In the structured-output path, `manuallyParseResponse` is never
invoked: a throwing call leaves `response` undefined (no raw content),
and the only in-path error message never contains "is not valid JSON". -/
theorem invokeStructured_no_manual_recovery (modelName : String) (r : LLMResult)
    (mp : String → Option Json) :
    (invokeStructured modelName r mp).manualParseCalls = 0 := by
  match r with
  | .ok (some p) raw => rfl
  | .ok none raw =>
    show (structuredCatch modelName
      { name := "Error", message := "Could not parse response with structured output" }
      raw mp).manualParseCalls = 0
    have hna : isAbortedError
        (.error { name := "Error",
                  message := "Could not parse response with structured output" }) = false := by
      decide
    have hnj : containsSub "Could not parse response with structured output"
        "is not valid JSON" = false := by decide
    unfold structuredCatch
    rw [hna]
    cases raw with
    | none => rfl
    | some s => simp [hnj]
  | .err e =>
    unfold invokeStructured structuredCatch
    cases h : isAbortedError (.error e) <;> simp [h]

/-- Claim C5 as stated is refuted on the structured-output fallback path:
the model returns no parsed value and raw text whose manual recovery
would fail, yet `invoke` throws a generic wrapping `Error`, not
`ResponseParseError` — and never even attempts manual recovery there. -/
theorem structured_fallback_no_responseParse_counterexample :
    (agentStructured.invoke (.ok none (some "no json here"))
        (fun _ => none)).outcome.isResponseParseThrown = false
    ∧ (agentStructured.invoke (.ok none (some "no json here"))
        (fun _ => none)).manualParseCalls = 0
    ∧ agentStructured.invoke (.ok none (some "no json here")) (fun _ => none) =
      ⟨.thrown (.wrappedStructured
          "Failed to invoke m1 with structured output: \nCould not parse response with structured output"),
        0⟩ := by
  refine ⟨by decide, by decide, by rfl⟩

/-- Claim C5 (amended): in the manual-extraction path a failed manual
recovery raises `ResponseParseError('Could not parse response')` after
exactly one recovery attempt; in the structured-output path manual
recovery is never invoked (its failures surface as a generic wrapping
`Error`); and no path retries — at most one recovery attempt per
invocation. -/
theorem manual_recovery_failure_raises_responseParse (a : BaseAgent) (r : LLMResult)
    (s : String) (mp : String → Option Json) :
    (a.withStructuredOutput = false → mp s = none →
      a.invoke (.ok none (some s)) mp =
        ⟨.thrown (.responseParse "Could not parse response"), 1⟩)
    ∧ (a.withStructuredOutput = true → (a.invoke r mp).manualParseCalls = 0)
    ∧ (a.invoke r mp).manualParseCalls ≤ 1 := by
  refine ⟨?_, ?_, ?_⟩
  · intro hws hmp
    simp [BaseAgent.invoke, hws, invokeManual, hmp]
  · intro hws
    simp only [BaseAgent.invoke, hws, if_true]
    exact invokeStructured_no_manual_recovery a.modelName r mp
  · unfold BaseAgent.invoke
    by_cases hws : a.withStructuredOutput = true
    · simp only [hws, if_true]
      rw [invokeStructured_no_manual_recovery]
      exact Nat.zero_le 1
    · simp only [Bool.eq_false_iff.mpr hws, Bool.false_eq_true, if_false]
      match r with
      | .err e => exact Nat.zero_le 1
      | .ok p none => exact Nat.zero_le 1
      | .ok p (some content) =>
        unfold invokeManual
        cases h : mp content <;> simp [h]

/-- Witness for amended C5: a manual-path agent whose recovery fails. -/
theorem manual_recovery_failure_raises_responseParse_witness :
    agentManual.invoke (.ok none (some "garbled output")) (fun _ => none) =
      ⟨.thrown (.responseParse "Could not parse response"), 1⟩ :=
  (manual_recovery_failure_raises_responseParse agentManual
    (.ok none (some "garbled output")) "garbled output" (fun _ => none)).1
    rfl rfl

/-- Claim C7 as stated is refuted by `isExtensionConflictError`: a plain
string (not an `Error` instance) matching the conflict patterns makes
the predicate return true, as the repository's own test expects. -/
theorem nonError_conflict_predicate_counterexample :
    (JsValue.str "Cannot access a chrome-extension of different extension").isErrorValue
      = false
    ∧ isExtensionConflictError
        (.str "Cannot access a chrome-extension of different extension") = true := by
  refine ⟨rfl, by decide⟩

/-- Claim C7 (amended): `isAuthenticationError`, `isForbiddenError`,
`isBadRequestError` and `isAbortedError` return false (and are total, so
never throw) on every non-`Error` input; `isExtensionConflictError`
instead string-coerces non-`Error` input and may return true. -/
theorem predicates_false_on_non_error (v : JsValue) (h : v.isErrorValue = false) :
    isAuthenticationError v = false ∧ isForbiddenError v = false
    ∧ isBadRequestError v = false ∧ isAbortedError v = false := by
  cases v with
  | error e => simp [JsValue.isErrorValue] at h
  | str s => exact ⟨rfl, rfl, rfl, rfl⟩
  | num n => exact ⟨rfl, rfl, rfl, rfl⟩
  | null => exact ⟨rfl, rfl, rfl, rfl⟩
  | undef => exact ⟨rfl, rfl, rfl, rfl⟩

/-- Witness for amended C7 at a concrete non-`Error` value. -/
theorem predicates_false_on_non_error_witness :
    isAuthenticationError (.str "authentication 401 403 Aborted") = false
    ∧ isForbiddenError (.str "authentication 401 403 Aborted") = false
    ∧ isBadRequestError (.str "authentication 401 403 Aborted") = false
    ∧ isAbortedError (.str "authentication 401 403 Aborted") = false :=
  predicates_false_on_non_error (.str "authentication 401 403 Aborted") rfl

/- ### Claim C6: planner boolean coercion (`planner.test.ts` 6–14) -/

/-- Inputs to the planner boolean union schema: a boolean or a string
(anything else fails both union branches upstream). -/
inductive ZBoolInput where
  | bool (b : Bool) : ZBoolInput
  | str (s : String) : ZBoolInput

/-- `booleanStringSchema`: `z.union([z.boolean(), z.string().transform(...)])`
— booleans pass through; a string is lowercased and trimmed; `"true"`
parses to `true`, `"false"` to `false`, anything else throws
`Invalid boolean string: "<val>"`. -/
def booleanStringSchema : ZBoolInput → Except String Bool
  | .bool b => .ok b
  | .str s =>
    let lower := jsTrim (jsToLowerCase s)
    if lower == "true" then .ok true
    else if lower == "false" then .ok false
    else .error ("Invalid boolean string: \"" ++ s ++ "\"")

/-- Claim C6: every string whose lowercased, trimmed form is "true" parses
to `true`, every "false" variant to `false`, booleans pass through
unchanged, and every other string is rejected with a validation error
rather than defaulting. -/
theorem booleanStringSchema_coercion (b : Bool) (s : String) :
    booleanStringSchema (.bool b) = .ok b
    ∧ (jsTrim (jsToLowerCase s) = "true" → booleanStringSchema (.str s) = .ok true)
    ∧ (jsTrim (jsToLowerCase s) = "false" → booleanStringSchema (.str s) = .ok false)
    ∧ (jsTrim (jsToLowerCase s) ≠ "true" → jsTrim (jsToLowerCase s) ≠ "false" →
        booleanStringSchema (.str s) =
          .error ("Invalid boolean string: \"" ++ s ++ "\"")) := by
  refine ⟨rfl, ?_, ?_, ?_⟩
  · intro h; simp [booleanStringSchema, h]
  · intro h; simp [booleanStringSchema, h]
  · intro h h'
    simp [booleanStringSchema, beq_eq_false_iff_ne.mpr h, beq_eq_false_iff_ne.mpr h']

/-- Witness for C6 at the spec's concrete variants. -/
theorem booleanStringSchema_coercion_witness :
    booleanStringSchema (.str " TRUE ") = .ok true
    ∧ booleanStringSchema (.str "False") = .ok false
    ∧ booleanStringSchema (.str "maybe") =
        .error ("Invalid boolean string: \"" ++ "maybe" ++ "\"")
    ∧ booleanStringSchema (.bool false) = .ok false :=
  ⟨(booleanStringSchema_coercion true " TRUE ").2.1 (by decide),
   (booleanStringSchema_coercion true "False").2.2.1 (by decide),
   (booleanStringSchema_coercion true "maybe").2.2.2 (by decide) (by decide),
   (booleanStringSchema_coercion false "maybe").1⟩

/- ### Claim C8: vision gating and image stripping (`base.ts` 110–173, 304–330) -/

/-- `isLlamaModel` (`base.ts` 102–104). -/
def isLlamaModel (modelName : String) : Bool :=
  containsSub modelName "Llama-4" || containsSub modelName "Llama-3.3"
    || containsSub modelName "llama-3.3"

/-- `BaseAgent.supportsVision` (`base.ts` 110–173): a static rule table on
provider identity, chat-model library name and lowercased model-name
substrings; every branch that matches nothing returns false. -/
def BaseAgent.supportsVision (a : BaseAgent) : Bool :=
  let m := jsToLowerCase a.modelName
  if a.provider == ProviderType.gemini
      || a.chatModelLibrary == "ChatGoogleGenerativeAI" then
    if containsSub m "preview" then false
    else if containsSub m "flash" && containsSub m "2." then true
    else if containsSub m "pro" && containsSub m "2." then true
    else false
  else if a.provider == ProviderType.openai || a.chatModelLibrary == "ChatOpenAI" then
    if containsSub m "gpt-4o" || containsSub m "gpt-5" then true
    else if containsSub m "vision" then true
    else if containsSub m "gpt-4-turbo" then true
    else false
  else if a.provider == ProviderType.anthropic
      || a.chatModelLibrary == "ChatAnthropic" then
    if containsSub m "claude-3" || containsSub m "claude-4" then true
    else false
  else if a.provider == ProviderType.llama || isLlamaModel a.modelName then false
  else if a.provider == ProviderType.deepSeek then false
  else false

/-- The positive rows of the static vision rule table: exactly the
conditions under which some branch of `supportsVision` returns true. -/
def matchesVisionPattern (a : BaseAgent) : Bool :=
  let m := jsToLowerCase a.modelName
  let geminiFam := a.provider == ProviderType.gemini
    || a.chatModelLibrary == "ChatGoogleGenerativeAI"
  let openaiFam := a.provider == ProviderType.openai
    || a.chatModelLibrary == "ChatOpenAI"
  let anthropicFam := a.provider == ProviderType.anthropic
    || a.chatModelLibrary == "ChatAnthropic"
  (geminiFam && !containsSub m "preview"
    && (containsSub m "flash" || containsSub m "pro") && containsSub m "2.")
  || (!geminiFam && openaiFam
    && (containsSub m "gpt-4o" || containsSub m "gpt-5"
        || containsSub m "vision" || containsSub m "gpt-4-turbo"))
  || (!geminiFam && !openaiFam && anthropicFam
    && (containsSub m "claude-3" || containsSub m "claude-4"))

/-- `supportsVision` returns true exactly on the positive rows of the
rule table. -/
theorem supportsVision_eq_matchesVisionPattern (a : BaseAgent) :
    a.supportsVision = matchesVisionPattern a := by
  unfold BaseAgent.supportsVision matchesVisionPattern
  cases hG : (a.provider == ProviderType.gemini
      || a.chatModelLibrary == "ChatGoogleGenerativeAI") <;>
    cases hO : (a.provider == ProviderType.openai
      || a.chatModelLibrary == "ChatOpenAI") <;>
    cases hA : (a.provider == ProviderType.anthropic
      || a.chatModelLibrary == "ChatAnthropic") <;>
    simp only [hG, hO, hA, Bool.false_eq_true, if_false, if_true, Bool.not_false,
      Bool.not_true, Bool.true_and, Bool.false_and, Bool.and_false, Bool.and_true,
      Bool.or_false, Bool.false_or] <;>
    cases hp : containsSub (jsToLowerCase a.modelName) "preview" <;>
    cases hf : containsSub (jsToLowerCase a.modelName) "flash" <;>
    cases hq : containsSub (jsToLowerCase a.modelName) "pro" <;>
    cases h2 : containsSub (jsToLowerCase a.modelName) "2." <;>
    simp [hp, hf, hq, h2, Bool.or_assoc, Bool.and_assoc]

/-- One entry of an array-content message (`message.content` element). -/
inductive ContentItem where
  | text (t : String) : ContentItem
  | imageUrl (url : String) : ContentItem
  | otherItem (ty : String) : ContentItem

/-- Does the entry have `type === 'text'`? -/
def ContentItem.isTextItem : ContentItem → Bool
  | .text _ => true
  | _ => false

/-- `'text' in item ? item.text : ''`. -/
def ContentItem.textOf : ContentItem → String
  | .text t => t
  | _ => ""

/-- A message's content: a plain string or an array of parts. -/
inductive MessageContent where
  | str (s : String) : MessageContent
  | arr (items : List ContentItem) : MessageContent

/-- A conversation message as `stripImagesFromMessages` observes it. -/
structure Message where
  content : MessageContent

/-- Does the message still carry image content? -/
def Message.hasImageContent (m : Message) : Bool :=
  match m.content with
  | .str _ => false
  | .arr items => items.any (fun i => match i with
      | .imageUrl _ => true
      | _ => false)

/-- Per-message body of `stripImagesFromMessages` (`base.ts` 311–329):
array content keeps only the text parts, joined by newlines; other
content is returned as-is. -/
def stripMessage (m : Message) : Message :=
  match m.content with
  | .arr items =>
    ⟨.str (String.intercalate "\n"
      ((items.filter ContentItem.isTextItem).map ContentItem.textOf))⟩
  | _ => m

/-- `BaseAgent.stripImagesFromMessages` (`base.ts` 304–330): messages pass
through untouched when the model supports vision, otherwise each message
is stripped to its text parts. -/
def BaseAgent.stripImagesFromMessages (a : BaseAgent) (messages : List Message) :
    List Message :=
  if a.supportsVision then messages else messages.map stripMessage

/-- A stripped message never carries image content. -/
theorem stripMessage_no_image (m : Message) :
    (stripMessage m).hasImageContent = false := by
  match m with
  | ⟨.str s⟩ => rfl
  | ⟨.arr items⟩ => rfl

/-- Claim C8: a provider/model combination matching none of the positive
rows of the vision rule table gets the conservative no-vision default,
and image content is then removed from every array-content message,
keeping only text parts. -/
theorem no_vision_pattern_strips_images (a : BaseAgent) (messages : List Message)
    (hmatch : matchesVisionPattern a = false) :
    a.supportsVision = false
    ∧ a.stripImagesFromMessages messages = messages.map stripMessage
    ∧ ∀ m ∈ a.stripImagesFromMessages messages, m.hasImageContent = false := by
  have hsv : a.supportsVision = false :=
    (supportsVision_eq_matchesVisionPattern a).trans hmatch
  have hstrip : a.stripImagesFromMessages messages = messages.map stripMessage := by
    simp [BaseAgent.stripImagesFromMessages, hsv]
  refine ⟨hsv, hstrip, ?_⟩
  intro m hm
  rw [hstrip] at hm
  rcases List.mem_map.mp hm with ⟨m₀, _, rfl⟩
  exact stripMessage_no_image m₀

/-- Witness for C8: an unknown provider/model keeps no images. -/
theorem no_vision_pattern_strips_images_witness :
    BaseAgent.supportsVision
        { provider := ProviderType.other "groq", chatModelLibrary := "ChatGroq"
          modelName := "mixtral-8x7b", withStructuredOutput := true } = false
    ∧ ∀ m ∈ BaseAgent.stripImagesFromMessages
        { provider := ProviderType.other "groq", chatModelLibrary := "ChatGroq"
          modelName := "mixtral-8x7b", withStructuredOutput := true }
        [⟨.arr [.text "caption", .imageUrl "data:image/png"]⟩],
        m.hasImageContent = false :=
  ⟨(no_vision_pattern_strips_images
      { provider := ProviderType.other "groq", chatModelLibrary := "ChatGroq"
        modelName := "mixtral-8x7b", withStructuredOutput := true }
      [⟨.arr [.text "caption", .imageUrl "data:image/png"]⟩] (by decide)).1,
   (no_vision_pattern_strips_images
      { provider := ProviderType.other "groq", chatModelLibrary := "ChatGroq"
        modelName := "mixtral-8x7b", withStructuredOutput := true }
      [⟨.arr [.text "caption", .imageUrl "data:image/png"]⟩] (by decide)).2.2⟩

/- ### Claim C10: memory store size bounds (`packages/storage/.../memory.ts`) -/

/-- `MemorySettings`. -/
structure MemorySettings where
  enabled : Bool
  maxPatterns : Nat
  maxPreferences : Nat

/-- `DEFAULT_MEMORY_SETTINGS`. -/
def DEFAULT_MEMORY_SETTINGS : MemorySettings :=
  { enabled := true, maxPatterns := 100, maxPreferences := 50 }

/-- `LearnedPattern` (timestamps as naturals). -/
structure LearnedPattern where
  id : String
  taskType : String
  domain : String
  description : String
  selectors : Option (List String) := none
  actionSequence : Option (List String) := none
  successCount : Nat
  lastUsed : Nat
  createdAt : Nat

/-- `UserPreference`; `confidence` is a 0–1 numeric score the store never
computes with, carried as a rational. -/
structure UserPreference where
  key : String
  value : String
  learnedFrom : String
  confidence : Rat
  lastUpdated : Nat

/-- `AgentMemory`, the stored state; `memory.settings || DEFAULT` is
modelled with the settings always present. -/
structure AgentMemory where
  settings : MemorySettings
  patterns : List LearnedPattern
  preferences : List UserPreference

/-- `Omit<LearnedPattern, 'id' | 'createdAt' | 'successCount'>` as passed
to `addPattern` (its `lastUsed` is overwritten with the current time). -/
structure PatternInput where
  taskType : String
  domain : String
  description : String
  selectors : Option (List String) := none
  actionSequence : Option (List String) := none
  lastUsed : Nat := 0

/-- `Omit<UserPreference, 'lastUpdated'>` as passed to `setPreference`. -/
structure PreferenceInput where
  key : String
  value : String
  learnedFrom : String
  confidence : Rat

/-- The similar-pattern test of `addPattern`: same domain, task type and
description. -/
def patternMatches (pattern : PatternInput) (p : LearnedPattern) : Bool :=
  p.domain == pattern.domain && p.taskType == pattern.taskType
    && p.description == pattern.description

/-- The fresh pattern `addPattern` constructs: the input with a new id,
`createdAt` and `lastUsed` set to now, `successCount` 1. -/
def newPatternOf (pattern : PatternInput) (now : Nat) (newId : String) :
    LearnedPattern :=
  { id := newId, taskType := pattern.taskType, domain := pattern.domain
    description := pattern.description, selectors := pattern.selectors
    actionSequence := pattern.actionSequence, successCount := 1
    lastUsed := now, createdAt := now }

/-- `memoryStore.addPattern` (`memory.ts` 116–149), with `Date.now()` and
`crypto.randomUUID()` passed in: a similar pattern is bumped in place
(no limit applied on this early-return path); otherwise the new pattern
is appended and, over the limit, the list is sorted by `lastUsed`
descending and truncated to `maxPatterns`. -/
def addPattern (mem : AgentMemory) (pattern : PatternInput) (now : Nat)
    (newId : String) : AgentMemory :=
  let settings := mem.settings
  match mem.patterns.findIdx? (patternMatches pattern) with
  | some i =>
    let bump := fun (p : LearnedPattern) =>
      { p with successCount := p.successCount + 1, lastUsed := now }
    { mem with patterns := mem.patterns.modify bump i }
  | none =>
    let patterns := mem.patterns ++ [newPatternOf pattern now newId]
    let patterns :=
      if patterns.length > settings.maxPatterns then
        (patterns.mergeSort (fun a b => decide (b.lastUsed ≤ a.lastUsed))).take
          settings.maxPatterns
      else patterns
    { mem with patterns := patterns }

/-- The updated preference `setPreference` stores. -/
def newPreferenceOf (preference : PreferenceInput) (now : Nat) : UserPreference :=
  { key := preference.key, value := preference.value
    learnedFrom := preference.learnedFrom, confidence := preference.confidence
    lastUpdated := now }

/-- `memoryStore.setPreference` (`memory.ts` 184–208): an existing key is
replaced in place, a fresh key appended; in both branches, over the
limit the list is sorted by `lastUpdated` descending and truncated to
`maxPreferences`. -/
def setPreference (mem : AgentMemory) (preference : PreferenceInput) (now : Nat) :
    AgentMemory :=
  let settings := mem.settings
  let newPref := newPreferenceOf preference now
  let preferences :=
    match mem.preferences.findIdx? (fun p => p.key == preference.key) with
    | some i => mem.preferences.set i newPref
    | none => mem.preferences ++ [newPref]
  let preferences :=
    if preferences.length > settings.maxPreferences then
      (preferences.mergeSort (fun a b => decide (b.lastUpdated ≤ a.lastUpdated))).take
        settings.maxPreferences
    else preferences
  { mem with preferences := preferences }

theorem length_modify_self (f : α → α) (i : Nat) (l : List α) :
    (l.modify f i).length = l.length :=
  List.length_modifyTailIdx _ (fun _ => by simp) i l

/-- Sorting a list by a numeric key descending yields a permutation that
is pairwise-descending on the key. -/
theorem mergeSort_desc_spec (l : List α) (key : α → Nat) :
    l.Perm (l.mergeSort (fun a b => decide (key b ≤ key a)))
    ∧ (l.mergeSort (fun a b => decide (key b ≤ key a))).Pairwise
        (fun a b => key b ≤ key a) := by
  constructor
  · exact (List.mergeSort_perm l _).symm
  · have htrans : ∀ a b c : α, (fun a b => decide (key b ≤ key a)) a b →
        (fun a b => decide (key b ≤ key a)) b c →
        (fun a b => decide (key b ≤ key a)) a c := by
      intro a b c hab hbc
      exact decide_eq_true
        (Nat.le_trans (of_decide_eq_true hbc) (of_decide_eq_true hab))
    have htotal : ∀ a b : α, ((fun a b => decide (key b ≤ key a)) a b
        || (fun a b => decide (key b ≤ key a)) b a) = true := by
      intro a b
      rcases Nat.le_total (key b) (key a) with h | h <;> simp [h]
    exact (List.sorted_mergeSort htrans htotal l).imp (fun h => of_decide_eq_true h)

/-- Claim C10: the memory store preserves its size bounds — starting from
a state within bounds, `addPattern` and `setPreference` leave at most
`maxPatterns` patterns and `maxPreferences` preferences; when the append
overflows, the excess is removed by keeping a maximal prefix of a
`lastUsed`/`lastUpdated`-descending reordering, i.e. the most recently
used/updated entries. -/
theorem memoryStore_size_bounds (mem : AgentMemory) (pattern : PatternInput)
    (preference : PreferenceInput) (now : Nat) (newId : String)
    (hpat : mem.patterns.length ≤ mem.settings.maxPatterns)
    (hpref : mem.preferences.length ≤ mem.settings.maxPreferences) :
    ((addPattern mem pattern now newId).patterns.length ≤ mem.settings.maxPatterns
      ∧ (addPattern mem pattern now newId).preferences.length
          ≤ mem.settings.maxPreferences)
    ∧ ((setPreference mem preference now).patterns.length ≤ mem.settings.maxPatterns
      ∧ (setPreference mem preference now).preferences.length
          ≤ mem.settings.maxPreferences)
    ∧ (mem.patterns.findIdx? (patternMatches pattern) = none →
        mem.patterns.length + 1 > mem.settings.maxPatterns →
        ∃ sorted, (mem.patterns ++ [newPatternOf pattern now newId]).Perm sorted
          ∧ sorted.Pairwise (fun a b => b.lastUsed ≤ a.lastUsed)
          ∧ (addPattern mem pattern now newId).patterns =
              sorted.take mem.settings.maxPatterns)
    ∧ (mem.preferences.findIdx? (fun p => p.key == preference.key) = none →
        mem.preferences.length + 1 > mem.settings.maxPreferences →
        ∃ sorted, (mem.preferences ++ [newPreferenceOf preference now]).Perm sorted
          ∧ sorted.Pairwise (fun a b => b.lastUpdated ≤ a.lastUpdated)
          ∧ (setPreference mem preference now).preferences =
              sorted.take mem.settings.maxPreferences) := by
  refine ⟨⟨?_, ?_⟩, ⟨?_, ?_⟩, ?_, ?_⟩
  · unfold addPattern
    cases hidx : mem.patterns.findIdx? (patternMatches pattern) with
    | some i => simpa [length_modify_self] using hpat
    | none =>
      by_cases hov : (mem.patterns ++ [newPatternOf pattern now newId]).length
          > mem.settings.maxPatterns
      · simp only [hov, if_true]
        simp
      · simp only [hov, if_false]
        exact Nat.le_of_not_lt hov
  · unfold addPattern
    cases hidx : mem.patterns.findIdx? (patternMatches pattern) with
    | some i => exact hpref
    | none =>
      by_cases hov : (mem.patterns ++ [newPatternOf pattern now newId]).length
          > mem.settings.maxPatterns
      · simp only [hov, if_true]; exact hpref
      · simp only [hov, if_false]; exact hpref
  · exact hpat
  · unfold setPreference
    cases hidx : mem.preferences.findIdx? (fun p => p.key == preference.key) with
    | some i =>
      by_cases hov : (mem.preferences.set i (newPreferenceOf preference now)).length
          > mem.settings.maxPreferences
      · simp only [hidx, hov, if_true]
        simp
      · simp only [hidx, hov, if_false]
        simpa [List.length_set] using hpref
    | none =>
      by_cases hov : (mem.preferences ++ [newPreferenceOf preference now]).length
          > mem.settings.maxPreferences
      · simp only [hidx, hov, if_true]
        simp
      · simp only [hidx, hov, if_false]
        exact Nat.le_of_not_lt hov
  · intro hidx hov
    have hspec := mergeSort_desc_spec
      (mem.patterns ++ [newPatternOf pattern now newId]) (fun p => p.lastUsed)
    refine ⟨(mem.patterns ++ [newPatternOf pattern now newId]).mergeSort
        (fun a b => decide (b.lastUsed ≤ a.lastUsed)), hspec.1, hspec.2, ?_⟩
    have hov' : (mem.patterns ++ [newPatternOf pattern now newId]).length
        > mem.settings.maxPatterns := by simpa using hov
    simp only [addPattern, hidx, hov', if_true]
  · intro hidx hov
    have hspec := mergeSort_desc_spec
      (mem.preferences ++ [newPreferenceOf preference now]) (fun p => p.lastUpdated)
    refine ⟨(mem.preferences ++ [newPreferenceOf preference now]).mergeSort
        (fun a b => decide (b.lastUpdated ≤ a.lastUpdated)), hspec.1, hspec.2, ?_⟩
    have hov' : (mem.preferences ++ [newPreferenceOf preference now]).length
        > mem.settings.maxPreferences := by simpa using hov
    simp only [setPreference, hidx, hov', if_true]

/-- A concrete full memory state (both limits already reached). -/
def memEx : AgentMemory :=
  { settings := { enabled := true, maxPatterns := 1, maxPreferences := 1 }
    patterns := [{ id := "p1", taskType := "search", domain := "a.com"
                   description := "d1", successCount := 2, lastUsed := 10
                   createdAt := 1 }]
    preferences := [{ key := "lang", value := "en", learnedFrom := "ctx"
                      confidence := 1, lastUpdated := 4 }] }

/-- A pattern input dissimilar to everything stored in `memEx`. -/
def patEx : PatternInput :=
  { taskType := "search", domain := "b.com", description := "d2" }

/-- A preference input with a key fresh in `memEx`. -/
def prefEx : PreferenceInput :=
  { key := "theme", value := "dark", learnedFrom := "ctx", confidence := 1 }

/-- Witness for C10: adding to a full store stays within the limits. -/
theorem memoryStore_size_bounds_witness :
    (addPattern memEx patEx 20 "p2").patterns.length ≤ memEx.settings.maxPatterns
    ∧ (setPreference memEx prefEx 20).preferences.length
        ≤ memEx.settings.maxPreferences :=
  ⟨(memoryStore_size_bounds memEx patEx prefEx 20 "p2" (by decide) (by decide)).1.1,
   (memoryStore_size_bounds memEx patEx prefEx 20 "p2" (by decide) (by decide)).2.1.2⟩

end VoiceBrowser
